import Mathlib

/-!
Verification development for the `comment-extract` documentation generator.

The repository turns a rustdoc JSON item graph into a tree of Markdown pages.
This file gives a shallow embedding of its core functions:

* `src/utils.rs`   — `hide_code_block_lines`, `caption`, `RelativeTo for Path`;
* `src/segment.rs` — `ItemPool::{get, insert_with_path}`, `CachedItem` and its
  `Repr`/`ExternalLink` implementations (the recursive type-signature
  renderer), `associated_methods`;
* `src/doc_traits.rs` — `CrossRef` and the blanket `ExternalLink` impl;
* `src/repr.rs` and `src/main.rs` — the two other revisions of the type
  renderer that the repository keeps.

Rust `String`s are Lean `String`s, `PathBuf`s are `List String` of segments,
`HashMap`s are association lists, rustdoc `Id`s are `String`s, panics
(`unwrap`, `unimplemented!`) are `Except.error`, and the `RefCell` item cache
is threaded as explicit state.
-/

/-! ## Generic list / string helpers (models of the Rust std functions used) -/

/-- Association-list lookup, the model of `HashMap::get`. -/
def mapGet [DecidableEq α] (k : α) : List (α × β) → Option β
  | [] => none
  | (a, b) :: l => if k = a then some b else mapGet k l

/-- `Vec<String>::join(sep)`. -/
def joinSep (sep : String) : List String → String
  | [] => ""
  | [x] => x
  | x :: y :: xs => x ++ sep ++ joinSep sep (y :: xs)

/-- Whether `p` is an initial segment of `l` (model of `str::starts_with`). -/
def listStarts : List Char → List Char → Bool
  | _, [] => true
  | [], _ :: _ => false
  | c :: cs, d :: ds => c == d && listStarts cs ds

/-- `str::starts_with` on our strings. -/
def strStarts (s p : String) : Bool := listStarts s.data p.data

/-- One ASCII whitespace character (model of the regex class `\s`; the inputs
of this development are ASCII, so the extra Unicode whitespace accepted by the
`regex` crate is not modelled). -/
def isWsChar (c : Char) : Bool :=
  c == ' ' || c == '\t' || c == '\n' || c == '\r' || c.toNat == 11 || c.toNat == 12

/-- All characters are whitespace (`\s*` spanning the whole remainder). -/
def allWsL : List Char → Bool
  | [] => true
  | c :: cs => isWsChar c && allWsL cs

def allWsStr (s : String) : Bool := allWsL s.data

/-- Split a character list at every `'\n'`; always returns at least one piece. -/
def splitNL : List Char → List (List Char)
  | [] => [[]]
  | c :: rest =>
    match splitNL rest with
    | [] => [[]]
    | l :: ls => if c = '\n' then [] :: l :: ls else (c :: l) :: ls

/-- Remove one trailing `'\r'` (what `str::lines` does to every piece). -/
def stripCR (l : List Char) : List Char :=
  match l.getLast? with
  | some '\r' => l.dropLast
  | _ => l

/-- Model of Rust `str::lines`: split on `'\n'`, drop a final empty piece
produced by a trailing newline, strip a trailing `'\r'` from each line. -/
def rustStrLines (s : String) : List String :=
  match s.data with
  | [] => []
  | c :: cs =>
    let ls := splitNL (c :: cs)
    let ls := if (c :: cs).getLast? = some '\n' then ls.dropLast else ls
    ls.map (fun l => String.mk (stripCR l))

/-! ## `src/utils.rs`: `hide_code_block_lines` -/

/-- The regex `^\x60\x60\x60(?<rust_code>(rust(\s*|\s+.*)?)|\s*)?$` from
`hide_code_block_lines` matches `line`: three backticks followed by either
whitespace only, or `rust` followed by nothing or by a whitespace character
(then anything).  A fence labeled with any other language does NOT match. -/
def isFence (l : String) : Bool :=
  listStarts l.data ['`', '`', '`'] &&
    (let r := l.data.drop 3
     allWsL r ||
       (listStarts r ['r', 'u', 's', 't'] &&
         (match r.drop 4 with
          | [] => true
          | c :: _ => isWsChar c)))

/-- The capture test the source performs on a matching fence line:
`some b` means the regex matched and `b` tells whether the `rust_code` group
participated.  The group is an optional wrapper around an alternation whose
second branch (`\s*`) can match the empty string, so whenever the line matches
at all the greedy `?` makes the group participate (possibly capturing `""`);
`some false` therefore never occurs and the source's `CodeBlock::Others` state
is unreachable. -/
def codeCapture (l : String) : Option Bool :=
  if isFence l then some true else none

/-- The regex `^[^#].*|^#\[.*`: a line is shown inside a rust code block iff
it has a first character other than `#`, or it starts with `#[`. -/
def reShow (l : String) : Bool :=
  (match l.data with
   | [] => false
   | c :: _ => !(c == '#')) || listStarts l.data ['#', '[']

/-- The `CodeBlock` state enum of `hide_code_block_lines`. -/
inductive CodeBlock where
  | Rust
  | Others
  | None

/-- The line loop of `hide_code_block_lines` (utils.rs:95-134). -/
def hideLinesGo : CodeBlock → List String → List String
  | _, [] => []
  | CodeBlock.Rust, l :: ls =>
    (if reShow l then [l] else []) ++
      hideLinesGo (if isFence l then CodeBlock.None else CodeBlock.Rust) ls
  | CodeBlock.Others, l :: ls =>
    l :: hideLinesGo (if isFence l then CodeBlock.None else CodeBlock.Others) ls
  | CodeBlock.None, l :: ls =>
    match codeCapture l with
    | some true => "```rust" :: hideLinesGo CodeBlock.Rust ls
    | some false => l :: hideLinesGo CodeBlock.Others ls
    | none => l :: hideLinesGo CodeBlock.None ls

def hideLines (ls : List String) : List String :=
  hideLinesGo CodeBlock.None ls

/-- `hide_code_block_lines` (utils.rs:83-137): iterate the state machine over
`docs.lines()` and re-join with `"\n"`. -/
def hide_code_block_lines (docs : String) : String :=
  joinSep "\n" (hideLines (rustStrLines docs))

/-! ## `src/utils.rs`: `caption` -/

/-- The caption regex `(?:^\s*\n*)*(?P<caption>^\w*.*)(?:\n?)$?` (multi-line)
greedily skips a whitespace-only prefix up to the furthest line start it can
reach and captures the full line found there: the first line containing a
non-whitespace character when one exists, otherwise the last line. -/
def captionStr (d : String) : String :=
  let ls := (splitNL d.data).map String.mk
  match ls.find? (fun l => !allWsStr l) with
  | some l => l
  | none => ls.getLastD ""

/-! ## `src/utils.rs`: `RelativeTo for Path` and the spec's resolution -/

/-- The `d` computed by `relative_to` (utils.rs:147-152): the number of
positions at which the two zipped segment sequences agree — NOT the length of
the longest common prefix, because the loop has no break at a mismatch. -/
def countEqZip (l r : List String) : Nat :=
  List.countP (fun p => p.1 == p.2) (l.zip r)

/-- `Path::relative_to` (utils.rs:139-159): `left.len() - d` parent steps
followed by the suffix of `right` past the first `d` segments. -/
def relativeTo (left right : List String) : List String :=
  let d := countEqZip left right
  List.replicate (left.length - d) ".." ++ right.drop d

/-- Modelled from the spec: "when resolved against A's directory" — resolving
a relative path against a base directory pops one directory per `".."` and
pushes every other segment. -/
def resolveAgainst (base rel : List String) : List String :=
  rel.foldl (fun acc seg => if seg = ".." then acc.dropLast else acc ++ [seg]) base

/-! ## The rustdoc item-graph data model (`rustdoc_types`)

Only the fields the embedded functions read are carried.  Payloads that the
renderer never inspects (the body of a `FunctionPointer`, the parameters of a
higher-rank bound, the expression of a `Const` argument) are reduced to the
data needed to state the source's emptiness tests. -/

mutual

/-- `rustdoc_types::Type`. -/
inductive Type' where
  | Primitive (p : String)
  | ResolvedPath (p : RPath)
  | DynTrait (traits : List PolyTrait) (lifetime : Option String)
  | Generic (t : String)
  | BorrowedRef (lifetime : Option String) (mutable : Bool) (type_ : Type')
  | Tuple (ts : List Type')
  | Slice (t : Type')
  | Array (type_ : Type') (len : String)
  | ImplTrait (bounds : List GenericBound)
  | FunctionPointer (decl : FnDecl)
  | Infer
  | RawPointer (mutable : Bool) (type_ : Type')
  | QualifiedPath (name : String) (args : GenericArgs) (self_type : Type') (trait_ : RPath)

/-- `rustdoc_types::Path` (the resolved-path payload). -/
inductive RPath where
  | mk (name : String) (id : String) (args : Option GenericArgs)

/-- `rustdoc_types::PolyTrait`; `generic_params` only has its emptiness
tested, so the parameter definitions are carried as their names. -/
inductive PolyTrait where
  | mk (trait_ : RPath) (generic_params : List String)

/-- `rustdoc_types::GenericArgs`. -/
inductive GenericArgs where
  | AngleBracketed (args : List GenericArg) (bindings : List TypeBinding)
  | Parenthesized (inputs : List Type') (output : Option Type')

/-- `rustdoc_types::GenericArg`; the `Const` payload (a constant expression)
is carried as its printed form. -/
inductive GenericArg where
  | Lifetime (a : String)
  | Type (t : Type')
  | Const (c : String)
  | Infer

/-- `rustdoc_types::TypeBinding`. -/
inductive TypeBinding where
  | mk (name : String) (args : GenericArgs) (binding : TypeBindingKind)

/-- `rustdoc_types::TypeBindingKind`. -/
inductive TypeBindingKind where
  | Equality (term : Term)
  | Constraint (c : List GenericBound)

/-- `rustdoc_types::Term`. -/
inductive Term where
  | Type (t : Type')
  | Constant (c : String)

/-- `rustdoc_types::GenericBound`. -/
inductive GenericBound where
  | TraitBound (trait_ : RPath) (generic_params : List String)
      (modifier : TraitBoundModifier)
  | Outlives (a : String)

/-- `rustdoc_types::TraitBoundModifier`. -/
inductive TraitBoundModifier where
  | None
  | Maybe
  | MaybeConst

/-- `rustdoc_types::FnDecl` (named parameter list and optional return type). -/
inductive FnDecl where
  | mk (inputs : List (String × Type')) (output : Option Type')

end

def RPath.name : RPath → String
  | .mk n _ _ => n

def RPath.id : RPath → String
  | .mk _ i _ => i

def RPath.args : RPath → Option GenericArgs
  | .mk _ _ a => a

def FnDecl.inputs : FnDecl → List (String × Type')
  | .mk i _ => i

def FnDecl.output : FnDecl → Option Type'
  | .mk _ o => o

/-- `rustdoc_types::ItemEnum`, restricted to the variants the code matches on;
`Trait` carries no payload (only its tag is inspected, in `doc_traits.rs`) and
`Other` stands for every remaining variant (all of them hit `unimplemented!`
or `None` arms). -/
inductive ItemEnum where
  | Function (decl : FnDecl)
  | Struct (impls : List String)
  | Impl (trait_ : Option RPath) (items : List String)
  | Trait
  | Other

/-- `rustdoc_types::ItemKind`, restricted to the kinds the code distinguishes;
`OtherKind` stands for every remaining kind (they all hit `unimplemented!`). -/
inductive ItemKind where
  | Function
  | Struct
  | Trait
  | Module
  | OtherKind

/-- `serde_plain::to_string` of an `ItemKind` (snake_case serialization). -/
def kindToStr : ItemKind → String
  | .Function => "function"
  | .Struct => "struct"
  | .Trait => "trait"
  | .Module => "module"
  | .OtherKind => "other"

/-- `rustdoc_types::Item` (the fields the embedded code reads). -/
structure Item where
  id : String
  crate_id : Nat
  name : Option String
  docs : Option String
  inner : ItemEnum

/-- `rustdoc_types::ItemSummary`. -/
structure ItemSummary where
  crate_id : Nat
  path : List String
  kind : ItemKind

/-- `rustdoc_types::ExternalCrate`. -/
structure ExternalCrate where
  name : String
  html_root_url : Option String

/-- `rustdoc_types::Crate` (index, path summaries, external crates, version). -/
structure Crate where
  index : List (String × Item)
  paths : List (String × ItemSummary)
  external_crates : List (Nat × ExternalCrate)
  crate_version : Option String

/-- `ItemPool::crates`: one `Crate` per package name. -/
def Crates := List (String × Crate)

/-- `segment.rs` `ItemId`: the `(package, item id)` cache key. -/
structure ItemId where
  pkg : String
  id : String
deriving DecidableEq

/-- `segment.rs` `CachedItem`.  The `pool` back-reference is not carried:
the shared `ItemPool` is the `Crates` value passed to every function, and the
mutable memoization table is threaded explicitly as `CacheState`. -/
structure CachedItem where
  id : ItemId
  item : Option Item
  item_summary : Option ItemSummary
  path : List String

/-- The memoization table `ItemPool::cached_items`. -/
def CacheState := List (ItemId × CachedItem)

/-- State-threading over the cache; a `.error` is a Rust panic
(`unwrap` / `unimplemented!`). -/
def M (α : Type) : Type := CacheState → Except String (α × CacheState)

def mpure (a : α) : M α := fun s => .ok (a, s)

def mthrow (e : String) : M α := fun _ => .error e

def mbind (m : M α) (f : α → M β) : M β := fun s =>
  match m s with
  | .error e => .error e
  | .ok (a, s') => f a s'

/-- Lift a stateless fallible computation. -/
def liftE (e : Except String α) : M α := fun s =>
  match e with
  | .error er => .error er
  | .ok a => .ok (a, s)

def mmapM (f : α → M β) : List α → M (List β)
  | [] => mpure []
  | a :: l => mbind (f a) fun b => mbind (mmapM f l) fun bs => mpure (b :: bs)

/-! ## `segment.rs`: cached-item construction and the pool operations -/

/-- `CachedItem::new_with_path` (segment.rs:209-226): the authoritative
summary path minus its leaf wins; the supplied synthesized path is used only
when the graph store has no path summary for the item. -/
def CachedItem.new_with_path (C : Crates) (id : ItemId) (path : List String) :
    Except String CachedItem :=
  match mapGet id.pkg C with
  | none => .error "ItemPool::crates: unknown package"
  | some cr =>
    .ok { id := id
          item := mapGet id.id cr.index
          item_summary := mapGet id.id cr.paths
          path :=
            match mapGet id.id cr.paths with
            | some summ => summ.path.dropLast
            | none => path }

/-- `CachedItem::new` (segment.rs:200-207): derives the path from the item's
path summary, panicking (`unwrap`) when the summary is absent. -/
def CachedItem.new (C : Crates) (id : ItemId) : Except String CachedItem :=
  match mapGet id.pkg C with
  | none => .error "ItemPool::crates: unknown package"
  | some cr =>
    match mapGet id.id cr.paths with
    | none => .error "CachedItem::new: missing path summary"
    | some summ => CachedItem.new_with_path C id summ.path.dropLast

/-- `ItemPool::get` (segment.rs:149-161). -/
def ItemPool.get (C : Crates) (id : ItemId) : M CachedItem := fun s =>
  match mapGet id s with
  | some cached => .ok (cached, s)
  | none =>
    match CachedItem.new C id with
    | .error e => .error e
    | .ok it => .ok (it, (id, it) :: s)

/-- `ItemPool::insert_with_path` (segment.rs:163-175). -/
def ItemPool.insert_with_path (C : Crates) (id : ItemId) (path : List String) :
    M CachedItem := fun s =>
  match mapGet id s with
  | some cached => .ok (cached, s)
  | none =>
    match CachedItem.new_with_path C id path with
    | .error e => .error e
    | .ok it => .ok (it, (id, it) :: s)

/-! ## `segment.rs`: `CachedItem` accessors and external-link resolution -/

/-- `CachedItem::kind` (segment.rs:258-263): the summary's kind, defaulting to
`Function` for items (associated methods) that have no path summary. -/
def kindOf (it : CachedItem) : ItemKind :=
  match it.item_summary with
  | some summ => summ.kind
  | none => ItemKind.Function

/-- `Name for CachedItem` (segment.rs:321-333): the item's own name, else the
leaf of the summary path, else a panic. -/
def nameOf (it : CachedItem) : Except String String :=
  match (it.item.bind (fun i => i.name)).or
      (it.item_summary.bind (fun summ => summ.path.getLast?)) with
  | some n => .ok n
  | none => .error "Name for CachedItem: no name"

/-- `CachedItem::docs` (segment.rs:311-318). -/
def docsOf (it : CachedItem) : String :=
  hide_code_block_lines ((it.item.bind (fun i => i.docs)).getD "")

/-- `utils::caption` (utils.rs:66-80) on an `Item`. -/
def caption (i : Item) : String :=
  match i.docs with
  | none => ""
  | some d => captionStr d

/-- `CachedItem::url_path` (segment.rs:273-279). -/
def urlPath (it : CachedItem) : String :=
  joinSep "/" it.path

/-- `CachedItem::crate_version` (segment.rs:265-271): double `unwrap`. -/
def crateVersion (C : Crates) (it : CachedItem) : Except String String :=
  match mapGet it.id.pkg C with
  | none => .error "crate_version: unknown package"
  | some cr =>
    match cr.crate_version with
    | none => .error "crate_version: no version"
    | some v => .ok v

/-- The fallback branch of `CachedItem::html_root_url` (segment.rs:293-307):
take the first segment of the item's path as the package name; a known package
links to its versioned docs.rs page, anything else to `latest`. -/
def fallbackUrl (C : Crates) (it : CachedItem) : Except String String :=
  match it.path.head? with
  | none => .error "html_root_url: empty path"
  | some pkg =>
    match mapGet pkg C with
    | some _ =>
      match crateVersion C it with
      | .error e => .error e
      | .ok v => .ok ("https://docs.rs/" ++ pkg ++ "/" ++ v ++ "/")
    | none => .ok ("https://docs.rs/" ++ pkg ++ "/latest/")

/-- `CachedItem::html_root_url` (segment.rs:281-309): the recorded external
crate root URL when one exists; inside the lookup the item's `crate_id` is
unwrapped (panic when both the item and its summary are absent). -/
def htmlRootUrl (C : Crates) (it : CachedItem) : Except String String :=
  match mapGet it.id.pkg C with
  | none => fallbackUrl C it
  | some cr =>
    match (it.item.map (fun i => i.crate_id)).or
        (it.item_summary.map (fun summ => summ.crate_id)) with
    | none => .error "html_root_url: crate_id unwrap"
    | some cid =>
      match (mapGet cid cr.external_crates).bind
          (fun ec => ec.html_root_url) with
      | some url => .ok url
      | none => fallbackUrl C it

/-- `ExternalLink for CachedItem` (segment.rs:350-360). -/
def cachedExternalLink (C : Crates) (it : CachedItem) : Except String String :=
  match htmlRootUrl C it with
  | .error e => .error e
  | .ok root =>
    match nameOf it with
    | .error e => .error e
    | .ok nm =>
      .ok (root ++ urlPath it ++ "/" ++ kindToStr (kindOf it) ++ "." ++ nm ++ ".html")

/-! ## `doc_traits.rs`: cross references and the blanket `ExternalLink` -/

/-- `CrossRef::cross_ref` (doc_traits.rs:54-60): relative path from `self`'s
directory to `to`'s directory joined with `"{to.name}.md"`. -/
def crossRef (self other : CachedItem) : Except String String :=
  match nameOf other with
  | .error e => .error e
  | .ok nm => .ok (joinSep "/" (relativeTo self.path other.path ++ [nm ++ ".md"]))

/-- `CrossRef::cross_ref_md` (doc_traits.rs:62-64): `[name](path)`. -/
def crossRefMd (self other : CachedItem) : Except String String :=
  match nameOf other with
  | .error e => .error e
  | .ok nm =>
    match crossRef self other with
    | .error e => .error e
    | .ok path => .ok ("[" ++ nm ++ "](" ++ path ++ ")")

/-- The blanket `ExternalLink` impl of `doc_traits.rs:71-124`, resolving the
link for the item `selfId` inside package `pkg`: a local item (`crate_id` 0)
gets a docs.rs URL built from the unwrapped summary path, version, kind tag
and name; a foreign item falls back to the recorded external root URL or `""`;
an identifier absent from the index degrades to `""`. -/
def externalLinkDT (C : Crates) (pkg : String) (selfId : String) :
    Except String String :=
  match mapGet pkg C with
  | none => .error "ExternalLink: root package unwrap"
  | some cr =>
    match mapGet selfId cr.index with
    | none => .ok ""
    | some i =>
      match i.crate_id with
      | 0 =>
        match mapGet i.id cr.paths with
        | none => .error "ExternalLink: path unwrap"
        | some summ =>
          let path := joinSep "/" summ.path.dropLast
          match cr.crate_version with
          | none => .error "ExternalLink: version unwrap"
          | some ver =>
            match i.inner with
            | ItemEnum.Struct _ => structOrTraitUrl pkg ver path "struct" i.name
            | ItemEnum.Trait => structOrTraitUrl pkg ver path "trait" i.name
            | _ => .error "ExternalLink: unimplemented type"
      | cid + 1 =>
        match (mapGet (cid + 1) cr.external_crates).bind
            (fun ec => ec.html_root_url) with
        | some url => .ok url
        | none => .ok ""
where
  /-- The tail of the local-item URL: `item.name` is unwrapped last. -/
  structOrTraitUrl (pkg ver path tag : String) (name : Option String) :
      Except String String :=
    match name with
    | none => .error "ExternalLink: name unwrap"
    | some nm =>
      .ok ("https://docs.rs/" ++ pkg ++ "/" ++ ver ++ "/" ++ path ++ "/" ++
        tag ++ "." ++ nm ++ ".html")

/-! ## `segment.rs`: the type-signature renderer -/

/-- `ExternalLink for Type` (segment.rs:452-466): a primitive links to the std
primitive page; a resolved path resolves the item through the pool and uses
`ExternalLink for CachedItem`; everything else is `unimplemented!`. -/
def externalLinkTypeSeg (C : Crates) (root : CachedItem) : Type' → M String
  | Type'.Primitive p =>
    mpure ("https://doc.rust-lang.org/std/primitive." ++ p ++ ".html")
  | Type'.ResolvedPath p =>
    mbind (ItemPool.get C { pkg := root.id.pkg, id := p.id }) fun it =>
      liftE (cachedExternalLink C it)
  | _ => mthrow "ExternalLink for Type: unimplemented"

mutual

/-- `Repr for Type` (segment.rs:468-543). -/
def reprType (C : Crates) (root : CachedItem) : Type' → M String
  | Type'.Primitive p =>
    mbind (externalLinkTypeSeg C root (Type'.Primitive p)) fun link =>
      mpure ("<a href=\"" ++ link ++ "\">" ++ p ++ "</a>")
  | Type'.ResolvedPath p => reprRPath C root p
  | Type'.DynTrait traits lifetime =>
    mbind (reprPolyTraitList C root traits) fun ts =>
      mpure ("dyn " ++
        joinSep " + " (ts ++ (match lifetime with | some a => [a] | none => [])))
  | Type'.Generic t => mpure t
  | Type'.BorrowedRef lifetime mutable type_ =>
    mbind (reprType C root type_) fun tr =>
      mpure ("&" ++ (match lifetime with | some a => a ++ " " | none => "") ++
        (if mutable then "mut " else "") ++ tr)
  | Type'.Tuple ts =>
    mbind (reprTypeList C root ts) fun rs =>
      mpure ("(" ++ joinSep ", " rs ++ ")")
  | Type'.Slice t =>
    mbind (reprType C root t) fun r => mpure ("[" ++ r ++ "]")
  | Type'.Array type_ len =>
    mbind (reprType C root type_) fun r => mpure ("[" ++ r ++ ": " ++ len ++ "]")
  | Type'.ImplTrait bounds =>
    mbind (reprBoundList C root bounds) fun rs =>
      mpure ("impl " ++ joinSep " + " rs)
  | Type'.FunctionPointer _ => mthrow "Unimplemented Type"
  | Type'.Infer => mthrow "Unimplemented Type"
  | Type'.RawPointer _ _ => mthrow "Unimplemented Type"
  | Type'.QualifiedPath _ _ _ _ => mthrow "Unimplemented Type"

def reprTypeList (C : Crates) (root : CachedItem) : List Type' → M (List String)
  | [] => mpure []
  | t :: ts =>
    mbind (reprType C root t) fun r =>
      mbind (reprTypeList C root ts) fun rs => mpure (r :: rs)

/-- `Repr for rustdoc_types::Path` (segment.rs:594-609): resolve the id
through the pool, hyperlink with the cached item's external link, show the
path's own `name`, then the generic arguments. -/
def reprRPath (C : Crates) (root : CachedItem) : RPath → M String
  | RPath.mk name id args =>
    mbind (ItemPool.get C { pkg := root.id.pkg, id := id }) fun it =>
      mbind (liftE (cachedExternalLink C it)) fun link =>
        mbind (reprOptArgs C root args) fun ar =>
          mpure ("<a href=\"" ++ link ++ "\">" ++ name ++ "</a>" ++ ar)

/-- `self.args.as_deref().map(|args| args.repr(root)).unwrap_or("")`. -/
def reprOptArgs (C : Crates) (root : CachedItem) : Option GenericArgs → M String
  | none => mpure ""
  | some a => reprGenericArgs C root a

/-- `Repr for GenericArgs` (segment.rs:567-592): empty lists render as `""`,
otherwise an HTML-escaped angle-bracketed, comma-joined list of arguments then
bindings; `Parenthesized` is `unimplemented!`. -/
def reprGenericArgs (C : Crates) (root : CachedItem) : GenericArgs → M String
  | GenericArgs.AngleBracketed args bindings =>
    if !args.isEmpty || !bindings.isEmpty then
      mbind (reprGenericArgList C root args) fun as_ =>
        mbind (reprBindingList C root bindings) fun bs =>
          mpure ("&lt;" ++ joinSep ", " (as_ ++ bs) ++ "&gt;")
    else mpure ""
  | GenericArgs.Parenthesized _ _ => mthrow "Unimplemented GenericArgs"

def reprGenericArgList (C : Crates) (root : CachedItem) :
    List GenericArg → M (List String)
  | [] => mpure []
  | GenericArg.Lifetime a :: rest =>
    mbind (reprGenericArgList C root rest) fun rs => mpure (a :: rs)
  | GenericArg.Type t :: rest =>
    mbind (reprType C root t) fun r =>
      mbind (reprGenericArgList C root rest) fun rs => mpure (r :: rs)
  | GenericArg.Const _ :: _ => mthrow "Unimplemented GenericArg"
  | GenericArg.Infer :: _ => mthrow "Unimplemented GenericArg"

def reprBindingList (C : Crates) (root : CachedItem) :
    List TypeBinding → M (List String)
  | [] => mpure []
  | b :: bs =>
    mbind (reprTypeBinding C root b) fun r =>
      mbind (reprBindingList C root bs) fun rs => mpure (r :: rs)

/-- `Repr for TypeBinding` (segment.rs:545-565): name, generic arguments,
then the equality term; constraint bindings and constant terms panic. -/
def reprTypeBinding (C : Crates) (root : CachedItem) : TypeBinding → M String
  | TypeBinding.mk name args binding =>
    mbind (reprGenericArgs C root args) fun ar =>
      mbind
        (match binding with
         | TypeBindingKind.Equality (Term.Type t) => reprType C root t
         | TypeBindingKind.Equality (Term.Constant _) =>
           mthrow "Unimplemented TypeBindingKind"
         | TypeBindingKind.Constraint _ => mthrow "Unimplemented TypeBindingKing")
        fun br => mpure (name ++ ar ++ br)

/-- `Repr for GenericBound` (segment.rs:611-638). -/
def reprGenericBound (C : Crates) (root : CachedItem) : GenericBound → M String
  | GenericBound.TraitBound trait_ generic_params modifier =>
    if generic_params.isEmpty then
      match modifier with
      | TraitBoundModifier.MaybeConst => mthrow "Unimplemented TraitBoundModifier"
      | TraitBoundModifier.None =>
        mbind (reprRPath C root trait_) fun tr => mpure ("" ++ tr)
      | TraitBoundModifier.Maybe =>
        mbind (reprRPath C root trait_) fun tr => mpure ("?" ++ tr)
    else mthrow "Unimplemented: Higher-Rank Trait Bounds"
  | GenericBound.Outlives a => mpure a

def reprBoundList (C : Crates) (root : CachedItem) :
    List GenericBound → M (List String)
  | [] => mpure []
  | b :: bs =>
    mbind (reprGenericBound C root b) fun r =>
      mbind (reprBoundList C root bs) fun rs => mpure (r :: rs)

/-- The `dyn` trait list of segment.rs:477-493: each poly-trait with nonzero
higher-rank parameters panics, otherwise renders its trait path. -/
def reprPolyTraitList (C : Crates) (root : CachedItem) :
    List PolyTrait → M (List String)
  | [] => mpure []
  | PolyTrait.mk trait_ generic_params :: rest =>
    if generic_params.isEmpty then
      mbind (reprRPath C root trait_) fun r =>
        mbind (reprPolyTraitList C root rest) fun rs => mpure (r :: rs)
    else mthrow "Unimplemented: Higher-Rank Trait Bounds"

end

/-- One rendered parameter of `Repr for ItemEnum` (segment.rs:431-437). -/
def reprFnInput (C : Crates) (root : CachedItem) (p : String × Type') : M String :=
  mbind (reprType C root p.2) fun tr =>
    mpure ("<em class=\"sig-param n\">\n    <span class=\"pre\">" ++ p.1 ++
      "</span>: <span class=\"pre\">" ++ tr ++ "</span>\n</em>")

/-- `Repr for ItemEnum` (segment.rs:419-450): only `Function` is supported. -/
def reprItemEnum (C : Crates) (root : CachedItem) : ItemEnum → M String
  | ItemEnum.Function decl =>
    mbind (mmapM (reprFnInput C root) decl.inputs) fun ins =>
      mbind
        (match decl.output with
         | some t => mbind (reprType C root t) fun tr => mpure (" → " ++ tr)
         | none => mpure "")
        fun outPart =>
          mpure ("<span class=\"sig-paren\">(</span>\n" ++ joinSep ", " ins ++
            "\n<span class=\"sig-paren\">)</span>\n" ++ outPart)
  | _ => mthrow "Unimplemented ItemEnum"

/-! ## `segment.rs`: associated methods and the item renderer -/

/-- `CachedItem::associated_methods` (segment.rs:228-256): for a struct,
every item of a trait-free impl block, inserted into the cache with the
synthesized path `self.path / struct_name`; empty for everything else. -/
def associatedMethodsM (C : Crates) (self : CachedItem) : M (List CachedItem) :=
  match self.item with
  | none => mpure []
  | some i =>
    match mapGet self.id.pkg C with
    | none => mthrow "associated_methods: unknown package"
    | some cr =>
      match i.inner with
      | ItemEnum.Struct impls =>
        let methodIds :=
          ((impls.filterMap (fun iid => mapGet iid cr.index)).filterMap
            (fun impl_ =>
              match impl_.inner with
              | ItemEnum.Impl trait_ items =>
                match trait_ with
                | some _ => none
                | none => some items
              | _ => none)).flatten
        mmapM
          (fun mid =>
            match i.name with
            | none => mthrow "associated_methods: struct name unwrap"
            | some nm =>
              ItemPool.insert_with_path C { pkg := self.id.pkg, id := mid }
                (self.path ++ [nm]))
          methodIds
      | _ => mpure []

/-- One `"| cross-ref | caption |"` row of the Methods table
(segment.rs:392-398); the method's `item` is unwrapped for `caption`. -/
def methodRow (self m : CachedItem) : Except String String :=
  match crossRefMd self m with
  | .error e => .error e
  | .ok md =>
    match m.item with
    | none => .error "Repr for CachedItem: method item unwrap"
    | some mi => .ok ("| " ++ md ++ " | " ++ caption mi ++ " |")

def methodRows (self : CachedItem) : List CachedItem → Except String (List String)
  | [] => .ok []
  | m :: ms =>
    match methodRow self m with
    | .error e => .error e
    | .ok r =>
      match methodRows self ms with
      | .error e => .error e
      | .ok rs => .ok (r :: rs)

/-- The function-page template of segment.rs:368-385. -/
def functionPage (name sig docs : String) : String :=
  "# " ++ name ++ "\n\n<dl>\n    <dt class=\"sig\">\n    <span class=\"sig-name\">\n        <span class=\"pre\">" ++
    name ++ "</span>\n    </span>\n    " ++ sig ++
    "\n    </dt>\n</dl>\n\n" ++ docs ++ "\n"

/-- The struct-page templates of segment.rs:402-411. -/
def structPage (name docs methods : String) : String :=
  if methods = "" then "# " ++ name ++ "\n\n" ++ docs
  else
    "# " ++ name ++ "\n\n" ++ docs ++
      "\n\n# Methods\n| Method | Description |\n| --- | --- |\n" ++ methods

/-- `Repr for CachedItem` (segment.rs:362-417): a function page renders name,
signature and docs; a struct page renders name, docs, and a Methods table
exactly when the joined row string is nonempty; other kinds panic. -/
def reprCachedItem (C : Crates) (self : CachedItem) : M String :=
  match kindOf self with
  | ItemKind.Function =>
    mbind (liftE (nameOf self)) fun nm =>
      mbind
        (match self.item with
         | some i => mpure i
         | none => mthrow "Repr for CachedItem: item unwrap")
        fun i =>
          mbind (reprItemEnum C self i.inner) fun sig =>
            mpure (functionPage nm sig (docsOf self))
  | ItemKind.Struct =>
    mbind (associatedMethodsM C self) fun ms =>
      mbind (liftE (methodRows self ms)) fun rows =>
        mbind (liftE (nameOf self)) fun nm =>
          mpure (structPage nm (docsOf self) (joinSep "\n" rows))
  | _ => mthrow "Unimplemented ItemKind"

/-! ## `repr.rs`: the middle revision of the type renderer

Identical to the `segment.rs` renderer except that a primitive links without
going through `ExternalLink for Type`, a resolved path shows the resolved
item's name and links through the `doc_traits.rs` blanket impl, and — the
difference that matters below — a slice renders as `&[elem]`. -/

mutual

/-- `Repr for Type` (repr.rs:123-201). -/
def rsType (C : Crates) (root : CachedItem) : Type' → M String
  | Type'.Primitive p =>
    mpure ("<a href=\"https://doc.rust-lang.org/std/primitive." ++ p ++
      ".html\">" ++ p ++ "</a>")
  | Type'.ResolvedPath p => rsRPath C root p
  | Type'.DynTrait traits lifetime =>
    mbind (rsPolyTraitList C root traits) fun ts =>
      mpure ("dyn " ++
        joinSep " + " (ts ++ (match lifetime with | some a => [a] | none => [])))
  | Type'.Generic t => mpure t
  | Type'.BorrowedRef lifetime mutable type_ =>
    mbind (rsType C root type_) fun tr =>
      mpure ("&" ++ (match lifetime with | some a => a ++ " " | none => "") ++
        (if mutable then "mut " else "") ++ tr)
  | Type'.Tuple ts =>
    mbind (rsTypeList C root ts) fun rs =>
      mpure ("(" ++ joinSep ", " rs ++ ")")
  | Type'.Slice t =>
    mbind (rsType C root t) fun r => mpure ("&[" ++ r ++ "]")
  | Type'.Array type_ len =>
    mbind (rsType C root type_) fun r => mpure ("[" ++ r ++ ": " ++ len ++ "]")
  | Type'.ImplTrait bounds =>
    mbind (rsBoundList C root bounds) fun rs =>
      mpure ("impl " ++ joinSep " + " rs)
  | Type'.FunctionPointer _ => mthrow "Unimplemented Type"
  | Type'.Infer => mthrow "Unimplemented Type"
  | Type'.RawPointer _ _ => mthrow "Unimplemented Type"
  | Type'.QualifiedPath _ _ _ _ => mthrow "Unimplemented Type"

def rsTypeList (C : Crates) (root : CachedItem) : List Type' → M (List String)
  | [] => mpure []
  | t :: ts =>
    mbind (rsType C root t) fun r =>
      mbind (rsTypeList C root ts) fun rs => mpure (r :: rs)

/-- `Repr for rustdoc_types::Path` (repr.rs:252-267): this revision links via
the `doc_traits.rs` blanket impl and labels with the resolved item's name. -/
def rsRPath (C : Crates) (root : CachedItem) : RPath → M String
  | RPath.mk _ id args =>
    mbind (ItemPool.get C { pkg := root.id.pkg, id := id }) fun it =>
      mbind (liftE (externalLinkDT C it.id.pkg it.id.id)) fun link =>
        mbind (liftE (nameOf it)) fun nm =>
          mbind (rsOptArgs C root args) fun ar =>
            mpure ("<a href=\"" ++ link ++ "\">" ++ nm ++ "</a>" ++ ar)

def rsOptArgs (C : Crates) (root : CachedItem) : Option GenericArgs → M String
  | none => mpure ""
  | some a => rsGenericArgs C root a

/-- `Repr for GenericArgs` (repr.rs:225-250). -/
def rsGenericArgs (C : Crates) (root : CachedItem) : GenericArgs → M String
  | GenericArgs.AngleBracketed args bindings =>
    if !args.isEmpty || !bindings.isEmpty then
      mbind (rsGenericArgList C root args) fun as_ =>
        mbind (rsBindingList C root bindings) fun bs =>
          mpure ("&lt;" ++ joinSep ", " (as_ ++ bs) ++ "&gt;")
    else mpure ""
  | GenericArgs.Parenthesized _ _ => mthrow "Unimplemented GenericArgs"

def rsGenericArgList (C : Crates) (root : CachedItem) :
    List GenericArg → M (List String)
  | [] => mpure []
  | GenericArg.Lifetime a :: rest =>
    mbind (rsGenericArgList C root rest) fun rs => mpure (a :: rs)
  | GenericArg.Type t :: rest =>
    mbind (rsType C root t) fun r =>
      mbind (rsGenericArgList C root rest) fun rs => mpure (r :: rs)
  | GenericArg.Const _ :: _ => mthrow "Unimplemented GenericArg"
  | GenericArg.Infer :: _ => mthrow "Unimplemented GenericArg"

def rsBindingList (C : Crates) (root : CachedItem) :
    List TypeBinding → M (List String)
  | [] => mpure []
  | b :: bs =>
    mbind (rsTypeBinding C root b) fun r =>
      mbind (rsBindingList C root bs) fun rs => mpure (r :: rs)

/-- `Repr for TypeBinding` (repr.rs:203-223). -/
def rsTypeBinding (C : Crates) (root : CachedItem) : TypeBinding → M String
  | TypeBinding.mk name args binding =>
    mbind (rsGenericArgs C root args) fun ar =>
      mbind
        (match binding with
         | TypeBindingKind.Equality (Term.Type t) => rsType C root t
         | TypeBindingKind.Equality (Term.Constant _) =>
           mthrow "Unimplemented TypeBindingKind"
         | TypeBindingKind.Constraint _ => mthrow "Unimplemented TypeBindingKing")
        fun br => mpure (name ++ ar ++ br)

/-- `Repr for GenericBound` (repr.rs:269-296). -/
def rsGenericBound (C : Crates) (root : CachedItem) : GenericBound → M String
  | GenericBound.TraitBound trait_ generic_params modifier =>
    if generic_params.isEmpty then
      match modifier with
      | TraitBoundModifier.MaybeConst => mthrow "Unimplemented TraitBoundModifier"
      | TraitBoundModifier.None =>
        mbind (rsRPath C root trait_) fun tr => mpure ("" ++ tr)
      | TraitBoundModifier.Maybe =>
        mbind (rsRPath C root trait_) fun tr => mpure ("?" ++ tr)
    else mthrow "Unimplemented: Higher-Rank Trait Bounds"
  | GenericBound.Outlives a => mpure a

def rsBoundList (C : Crates) (root : CachedItem) :
    List GenericBound → M (List String)
  | [] => mpure []
  | b :: bs =>
    mbind (rsGenericBound C root b) fun r =>
      mbind (rsBoundList C root bs) fun rs => mpure (r :: rs)

def rsPolyTraitList (C : Crates) (root : CachedItem) :
    List PolyTrait → M (List String)
  | [] => mpure []
  | PolyTrait.mk trait_ generic_params :: rest =>
    if generic_params.isEmpty then
      mbind (rsRPath C root trait_) fun r =>
        mbind (rsPolyTraitList C root rest) fun rs => mpure (r :: rs)
    else mthrow "Unimplemented: Higher-Rank Trait Bounds"

end

/-! ## `main.rs`: the earliest revision — `Segment::to_string`

A pure renderer: no pool, no hyperlinks; a resolved path renders as its own
name plus its generic arguments.  The `Segment` enum dispatch is flattened
into one function per payload variant. -/

mutual

/-- The `Segment::Type` arms of `Segment::to_string` (main.rs:252-321). -/
def mainType : Type' → Except String String
  | Type'.Primitive p => .ok p
  | Type'.ResolvedPath p => mainRPath p
  | Type'.DynTrait traits lifetime =>
    match mainPolyTraitList traits with
    | .error e => .error e
    | .ok ts =>
      .ok ("dyn " ++
        joinSep " + " (ts ++ (match lifetime with | some a => [a] | none => [])))
  | Type'.Generic t => .ok t
  | Type'.BorrowedRef lifetime mutable type_ =>
    match mainType type_ with
    | .error e => .error e
    | .ok tr =>
      .ok ("&" ++ (match lifetime with | some a => a ++ " " | none => "") ++
        (if mutable then "mut " else "") ++ tr)
  | Type'.Tuple ts =>
    match mainTypeList ts with
    | .error e => .error e
    | .ok rs => .ok ("(" ++ joinSep ", " rs ++ ")")
  | Type'.Slice t =>
    match mainType t with
    | .error e => .error e
    | .ok r => .ok ("[" ++ r ++ "]")
  | Type'.Array type_ len =>
    match mainType type_ with
    | .error e => .error e
    | .ok r => .ok ("[" ++ r ++ ": " ++ len ++ "]")
  | Type'.ImplTrait bounds =>
    match mainBoundList bounds with
    | .error e => .error e
    | .ok rs => .ok ("impl " ++ joinSep " + " rs)
  | Type'.FunctionPointer _ => .error "Unimplemented Type"
  | Type'.Infer => .error "Unimplemented Type"
  | Type'.RawPointer _ _ => .error "Unimplemented Type"
  | Type'.QualifiedPath _ _ _ _ => .error "Unimplemented Type"

def mainTypeList : List Type' → Except String (List String)
  | [] => .ok []
  | t :: ts =>
    match mainType t with
    | .error e => .error e
    | .ok r =>
      match mainTypeList ts with
      | .error e => .error e
      | .ok rs => .ok (r :: rs)

/-- `Segment::ResolvedPath` (main.rs:243-250). -/
def mainRPath : RPath → Except String String
  | RPath.mk name _ args =>
    match mainOptArgs args with
    | .error e => .error e
    | .ok ar => .ok (name ++ ar)

def mainOptArgs : Option GenericArgs → Except String String
  | none => .ok ""
  | some a => mainGenericArgs a

/-- `Segment::GenericArgs` (main.rs:323-349): plain `<` `>` brackets. -/
def mainGenericArgs : GenericArgs → Except String String
  | GenericArgs.AngleBracketed args bindings =>
    if args.length > 0 || bindings.length > 0 then
      match mainGenericArgList args with
      | .error e => .error e
      | .ok as_ =>
        match mainBindingList bindings with
        | .error e => .error e
        | .ok bs => .ok ("<" ++ joinSep ", " (as_ ++ bs) ++ ">")
    else .ok ""
  | GenericArgs.Parenthesized _ _ => .error "Unimplemented GenericArgs"

def mainGenericArgList : List GenericArg → Except String (List String)
  | [] => .ok []
  | GenericArg.Lifetime a :: rest =>
    match mainGenericArgList rest with
    | .error e => .error e
    | .ok rs => .ok (a :: rs)
  | GenericArg.Type t :: rest =>
    match mainType t with
    | .error e => .error e
    | .ok r =>
      match mainGenericArgList rest with
      | .error e => .error e
      | .ok rs => .ok (r :: rs)
  | GenericArg.Const _ :: _ => .error "Unimplemented GenericArg"
  | GenericArg.Infer :: _ => .error "Unimplemented GenericArg"

def mainBindingList : List TypeBinding → Except String (List String)
  | [] => .ok []
  | b :: bs =>
    match mainTypeBinding b with
    | .error e => .error e
    | .ok r =>
      match mainBindingList bs with
      | .error e => .error e
      | .ok rs => .ok (r :: rs)

/-- `Segment::TypeBinding` (main.rs:377-397). -/
def mainTypeBinding : TypeBinding → Except String String
  | TypeBinding.mk name args binding =>
    match mainGenericArgs args with
    | .error e => .error e
    | .ok ar =>
      match
        (match binding with
         | TypeBindingKind.Equality (Term.Type t) => mainType t
         | TypeBindingKind.Equality (Term.Constant _) =>
           .error "Unimplemented TypeBindingKind"
         | TypeBindingKind.Constraint _ => .error "Unimplemented TypeBindingKing")
      with
      | .error e => .error e
      | .ok br => .ok (name ++ ar ++ br)

/-- `Segment::GenericBound` (main.rs:351-375). -/
def mainGenericBound : GenericBound → Except String String
  | GenericBound.TraitBound trait_ generic_params modifier =>
    if generic_params.length > 0 then
      .error "Unimplemented: Higher-Rank Trait Bounds"
    else
      match modifier with
      | TraitBoundModifier.MaybeConst => .error "Unimplemented TraitBoundModifier"
      | TraitBoundModifier.None =>
        match mainRPath trait_ with
        | .error e => .error e
        | .ok tr => .ok ("" ++ tr)
      | TraitBoundModifier.Maybe =>
        match mainRPath trait_ with
        | .error e => .error e
        | .ok tr => .ok ("?" ++ tr)
  | GenericBound.Outlives a => .ok a

def mainBoundList : List GenericBound → Except String (List String)
  | [] => .ok []
  | b :: bs =>
    match mainGenericBound b with
    | .error e => .error e
    | .ok r =>
      match mainBoundList bs with
      | .error e => .error e
      | .ok rs => .ok (r :: rs)

/-- The `Segment::DynTrait` trait list (main.rs:256-275). -/
def mainPolyTraitList : List PolyTrait → Except String (List String)
  | [] => .ok []
  | PolyTrait.mk trait_ generic_params :: rest =>
    if generic_params.length > 0 then
      .error "Unimplemented: Higher-Rank Trait Bounds"
    else
      match mainRPath trait_ with
      | .error e => .error e
      | .ok r =>
        match mainPolyTraitList rest with
        | .error e => .error e
        | .ok rs => .ok (r :: rs)

end

/-! ## Cache growth and stability

The memoization table only ever gains entries (`ItemPool` never removes or
overwrites), and every pool computation is *stable*: rerunning it from its
own post-state — or any larger state — returns the same value and leaves the
state untouched.  This is the engine behind the cache-uniqueness and
render-idempotence claims. -/

/-- `SubState s t`: every cache entry of `s` is an entry of `t`. -/
def SubState (s t : CacheState) : Prop :=
  ∀ id c, mapGet id s = some c → mapGet id t = some c

theorem subState_refl (s : CacheState) : SubState s s := fun _ _ h => h

theorem subState_trans {s t u : CacheState} (h1 : SubState s t)
    (h2 : SubState t u) : SubState s u :=
  fun id c h => h2 id c (h1 id c h)

/-- A pool computation is stable: it only grows the cache, and rerunning it
from any state at least as large as its post-state returns the same value
without changing the state. -/
def Stable (m : M α) : Prop :=
  ∀ s a s', m s = .ok (a, s') →
    SubState s s' ∧ ∀ t, SubState s' t → m t = .ok (a, t)

theorem stable_mpure (a : α) : Stable (mpure a) := by
  intro s b s' h
  simp only [mpure] at h
  cases h
  exact ⟨subState_refl s, fun t _ => rfl⟩

theorem stable_mthrow (e : String) : Stable (mthrow e : M α) := by
  intro s b s' h
  exact Except.noConfusion h

theorem stable_liftE (e : Except String α) : Stable (liftE e) := by
  intro s b s' h
  cases e with
  | error er => exact Except.noConfusion h
  | ok a =>
    simp only [liftE] at h
    cases h
    exact ⟨subState_refl s, fun t _ => rfl⟩

theorem stable_mbind {m : M α} {f : α → M β} (hm : Stable m)
    (hf : ∀ a, Stable (f a)) : Stable (mbind m f) := by
  intro s b s' h
  simp only [mbind] at h
  cases hms : m s with
  | error e => rw [hms] at h; exact absurd h (by simp)
  | ok p =>
    obtain ⟨a, s₁⟩ := p
    rw [hms] at h
    obtain ⟨hsub1, hrep1⟩ := hm s a s₁ hms
    obtain ⟨hsub2, hrep2⟩ := hf a s₁ b s' h
    refine ⟨subState_trans hsub1 hsub2, fun t ht => ?_⟩
    simp only [mbind]
    rw [hrep1 t (subState_trans hsub2 ht)]
    exact hrep2 t ht

theorem stable_mmapM {f : α → M β} (hf : ∀ a, Stable (f a)) :
    ∀ l : List α, Stable (mmapM f l)
  | [] => by simp only [mmapM]; exact stable_mpure []
  | a :: l => by
    simp only [mmapM]
    exact stable_mbind (hf a) fun b =>
      stable_mbind (stable_mmapM hf l) fun bs => stable_mpure (b :: bs)

theorem mapGet_cons_self (id : ItemId) (it : CachedItem) (s : CacheState) :
    mapGet id ((id, it) :: s) = some it := by
  simp [mapGet]

/-- `ItemPool::get` hits the cache when the entry is present. -/
theorem poolGet_hit {C : Crates} {id : ItemId} {s : CacheState}
    {it : CachedItem} (h : mapGet id s = some it) :
    ItemPool.get C id s = .ok (it, s) := by
  simp [ItemPool.get, h]

/-- `ItemPool::insert_with_path` hits the cache when the entry is present. -/
theorem insertWithPath_hit {C : Crates} {id : ItemId} {p : List String}
    {s : CacheState} {it : CachedItem} (h : mapGet id s = some it) :
    ItemPool.insert_with_path C id p s = .ok (it, s) := by
  simp [ItemPool.insert_with_path, h]

/-- After a successful `get`, the returned item is in the cache. -/
theorem poolGet_post {C : Crates} {id : ItemId} {s s' : CacheState}
    {it : CachedItem} (h : ItemPool.get C id s = .ok (it, s')) :
    mapGet id s' = some it := by
  simp only [ItemPool.get] at h
  cases hms : mapGet id s with
  | some c => rw [hms] at h; cases h; exact hms
  | none =>
    rw [hms] at h
    cases hnew : CachedItem.new C id with
    | error e => rw [hnew] at h; exact absurd h (by simp)
    | ok c =>
      rw [hnew] at h
      cases h
      apply mapGet_cons_self

/-- After a successful `insert_with_path`, the returned item is in the cache. -/
theorem insertWithPath_post {C : Crates} {id : ItemId} {p : List String}
    {s s' : CacheState} {it : CachedItem}
    (h : ItemPool.insert_with_path C id p s = .ok (it, s')) :
    mapGet id s' = some it := by
  simp only [ItemPool.insert_with_path] at h
  cases hms : mapGet id s with
  | some c => rw [hms] at h; cases h; exact hms
  | none =>
    rw [hms] at h
    cases hnew : CachedItem.new_with_path C id p with
    | error e => rw [hnew] at h; exact absurd h (by simp)
    | ok c =>
      rw [hnew] at h
      cases h
      apply mapGet_cons_self

theorem subState_cons_of_none {id : ItemId} {it : CachedItem}
    {s : CacheState} (h : mapGet id s = none) : SubState s ((id, it) :: s) := by
  intro id' c' h'
  by_cases hid : id' = id
  · subst hid; rw [h'] at h; exact absurd h (by simp)
  · simpa [mapGet, hid] using h'

theorem stable_poolGet (C : Crates) (id : ItemId) : Stable (ItemPool.get C id) := by
  intro s a s' h
  simp only [ItemPool.get] at h
  cases hms : mapGet id s with
  | some c =>
    rw [hms] at h
    cases h
    exact ⟨subState_refl s, fun t ht => poolGet_hit (ht id a hms)⟩
  | none =>
    rw [hms] at h
    cases hnew : CachedItem.new C id with
    | error e => rw [hnew] at h; exact absurd h (by simp)
    | ok c =>
      rw [hnew] at h
      cases h
      refine ⟨subState_cons_of_none hms, fun t ht => ?_⟩
      exact poolGet_hit (ht id a (mapGet_cons_self id a s))

theorem stable_insertWithPath (C : Crates) (id : ItemId) (p : List String) :
    Stable (ItemPool.insert_with_path C id p) := by
  intro s a s' h
  simp only [ItemPool.insert_with_path] at h
  cases hms : mapGet id s with
  | some c =>
    rw [hms] at h
    cases h
    exact ⟨subState_refl s, fun t ht => insertWithPath_hit (ht id a hms)⟩
  | none =>
    rw [hms] at h
    cases hnew : CachedItem.new_with_path C id p with
    | error e => rw [hnew] at h; exact absurd h (by simp)
    | ok c =>
      rw [hnew] at h
      cases h
      refine ⟨subState_cons_of_none hms, fun t ht => ?_⟩
      exact insertWithPath_hit (ht id a (mapGet_cons_self id a s))

theorem stable_externalLinkTypeSeg (C : Crates) (root : CachedItem) :
    ∀ t : Type', Stable (externalLinkTypeSeg C root t) := by
  intro t
  cases t <;> simp only [externalLinkTypeSeg]
  case Primitive p => exact stable_mpure _
  case ResolvedPath p =>
    exact stable_mbind (stable_poolGet C _) fun it => stable_liftE _
  all_goals exact stable_mthrow _


mutual

theorem stable_reprType (C : Crates) (root : CachedItem) :
    ∀ t : Type', Stable (reprType C root t)
  | Type'.Primitive p => by
    simp only [reprType]
    exact stable_mbind (stable_externalLinkTypeSeg C root _) fun link =>
      stable_mpure _
  | Type'.ResolvedPath p => by
    simp only [reprType]
    exact stable_reprRPath C root p
  | Type'.DynTrait traits lifetime => by
    simp only [reprType]
    exact stable_mbind (stable_reprPolyTraitList C root traits) fun ts =>
      stable_mpure _
  | Type'.Generic t => by
    simp only [reprType]
    exact stable_mpure _
  | Type'.BorrowedRef lifetime mutable type_ => by
    simp only [reprType]
    exact stable_mbind (stable_reprType C root type_) fun tr => stable_mpure _
  | Type'.Tuple ts => by
    simp only [reprType]
    exact stable_mbind (stable_reprTypeList C root ts) fun rs => stable_mpure _
  | Type'.Slice t => by
    simp only [reprType]
    exact stable_mbind (stable_reprType C root t) fun r => stable_mpure _
  | Type'.Array type_ len => by
    simp only [reprType]
    exact stable_mbind (stable_reprType C root type_) fun r => stable_mpure _
  | Type'.ImplTrait bounds => by
    simp only [reprType]
    exact stable_mbind (stable_reprBoundList C root bounds) fun rs =>
      stable_mpure _
  | Type'.FunctionPointer _ => by
    simp only [reprType]; exact stable_mthrow _
  | Type'.Infer => by
    simp only [reprType]; exact stable_mthrow _
  | Type'.RawPointer _ _ => by
    simp only [reprType]; exact stable_mthrow _
  | Type'.QualifiedPath _ _ _ _ => by
    simp only [reprType]; exact stable_mthrow _

theorem stable_reprTypeList (C : Crates) (root : CachedItem) :
    ∀ ts : List Type', Stable (reprTypeList C root ts)
  | [] => by simp only [reprTypeList]; exact stable_mpure _
  | t :: ts => by
    simp only [reprTypeList]
    exact stable_mbind (stable_reprType C root t) fun r =>
      stable_mbind (stable_reprTypeList C root ts) fun rs => stable_mpure _

theorem stable_reprRPath (C : Crates) (root : CachedItem) :
    ∀ p : RPath, Stable (reprRPath C root p)
  | RPath.mk name id args => by
    simp only [reprRPath]
    exact stable_mbind (stable_poolGet C _) fun it =>
      stable_mbind (stable_liftE _) fun link =>
        stable_mbind (stable_reprOptArgs C root args) fun ar => stable_mpure _

theorem stable_reprOptArgs (C : Crates) (root : CachedItem) :
    ∀ a : Option GenericArgs, Stable (reprOptArgs C root a)
  | none => by simp only [reprOptArgs]; exact stable_mpure _
  | some a => by
    simp only [reprOptArgs]
    exact stable_reprGenericArgs C root a

theorem stable_reprGenericArgs (C : Crates) (root : CachedItem) :
    ∀ a : GenericArgs, Stable (reprGenericArgs C root a)
  | GenericArgs.AngleBracketed args bindings => by
    simp only [reprGenericArgs]
    split
    · exact stable_mbind (stable_reprGenericArgList C root args) fun as_ =>
        stable_mbind (stable_reprBindingList C root bindings) fun bs =>
          stable_mpure _
    · exact stable_mpure _
  | GenericArgs.Parenthesized _ _ => by
    simp only [reprGenericArgs]; exact stable_mthrow _

theorem stable_reprGenericArgList (C : Crates) (root : CachedItem) :
    ∀ l : List GenericArg, Stable (reprGenericArgList C root l)
  | [] => by simp only [reprGenericArgList]; exact stable_mpure _
  | GenericArg.Lifetime a :: rest => by
    simp only [reprGenericArgList]
    exact stable_mbind (stable_reprGenericArgList C root rest) fun rs =>
      stable_mpure _
  | GenericArg.Type t :: rest => by
    simp only [reprGenericArgList]
    exact stable_mbind (stable_reprType C root t) fun r =>
      stable_mbind (stable_reprGenericArgList C root rest) fun rs =>
        stable_mpure _
  | GenericArg.Const _ :: _ => by
    simp only [reprGenericArgList]; exact stable_mthrow _
  | GenericArg.Infer :: _ => by
    simp only [reprGenericArgList]; exact stable_mthrow _

theorem stable_reprBindingList (C : Crates) (root : CachedItem) :
    ∀ l : List TypeBinding, Stable (reprBindingList C root l)
  | [] => by simp only [reprBindingList]; exact stable_mpure _
  | b :: bs => by
    simp only [reprBindingList]
    exact stable_mbind (stable_reprTypeBinding C root b) fun r =>
      stable_mbind (stable_reprBindingList C root bs) fun rs => stable_mpure _

theorem stable_reprTypeBinding (C : Crates) (root : CachedItem) :
    ∀ b : TypeBinding, Stable (reprTypeBinding C root b)
  | TypeBinding.mk name args (TypeBindingKind.Equality (Term.Type t)) => by
    simp only [reprTypeBinding]
    exact stable_mbind (stable_reprGenericArgs C root args) fun ar =>
      stable_mbind (stable_reprType C root t) fun br => stable_mpure _
  | TypeBinding.mk name args (TypeBindingKind.Equality (Term.Constant _)) => by
    simp only [reprTypeBinding]
    exact stable_mbind (stable_reprGenericArgs C root args) fun ar =>
      stable_mbind (stable_mthrow _) fun br => stable_mpure _
  | TypeBinding.mk name args (TypeBindingKind.Constraint _) => by
    simp only [reprTypeBinding]
    exact stable_mbind (stable_reprGenericArgs C root args) fun ar =>
      stable_mbind (stable_mthrow _) fun br => stable_mpure _

theorem stable_reprGenericBound (C : Crates) (root : CachedItem) :
    ∀ b : GenericBound, Stable (reprGenericBound C root b)
  | GenericBound.TraitBound trait_ generic_params TraitBoundModifier.None => by
    simp only [reprGenericBound]
    split
    · exact stable_mbind (stable_reprRPath C root trait_) fun tr => stable_mpure _
    · exact stable_mthrow _
  | GenericBound.TraitBound trait_ generic_params TraitBoundModifier.Maybe => by
    simp only [reprGenericBound]
    split
    · exact stable_mbind (stable_reprRPath C root trait_) fun tr => stable_mpure _
    · exact stable_mthrow _
  | GenericBound.TraitBound trait_ generic_params TraitBoundModifier.MaybeConst => by
    simp only [reprGenericBound]
    split
    · exact stable_mthrow _
    · exact stable_mthrow _
  | GenericBound.Outlives a => by
    simp only [reprGenericBound]; exact stable_mpure _

theorem stable_reprBoundList (C : Crates) (root : CachedItem) :
    ∀ l : List GenericBound, Stable (reprBoundList C root l)
  | [] => by simp only [reprBoundList]; exact stable_mpure _
  | b :: bs => by
    simp only [reprBoundList]
    exact stable_mbind (stable_reprGenericBound C root b) fun r =>
      stable_mbind (stable_reprBoundList C root bs) fun rs => stable_mpure _

theorem stable_reprPolyTraitList (C : Crates) (root : CachedItem) :
    ∀ l : List PolyTrait, Stable (reprPolyTraitList C root l)
  | [] => by simp only [reprPolyTraitList]; exact stable_mpure _
  | PolyTrait.mk trait_ generic_params :: rest => by
    simp only [reprPolyTraitList]
    split
    · exact stable_mbind (stable_reprRPath C root trait_) fun r =>
        stable_mbind (stable_reprPolyTraitList C root rest) fun rs =>
          stable_mpure _
    · exact stable_mthrow _

end

theorem stable_reprFnInput (C : Crates) (root : CachedItem) (p : String × Type') :
    Stable (reprFnInput C root p) := by
  simp only [reprFnInput]
  exact stable_mbind (stable_reprType C root p.2) fun tr => stable_mpure _

theorem stable_reprItemEnum (C : Crates) (root : CachedItem) :
    ∀ i : ItemEnum, Stable (reprItemEnum C root i) := by
  intro i
  cases i <;> simp only [reprItemEnum]
  case Function decl =>
    refine stable_mbind (stable_mmapM (stable_reprFnInput C root) decl.inputs)
      fun ins => ?_
    refine stable_mbind ?_ fun outPart => stable_mpure _
    split
    · exact stable_mbind (stable_reprType C root _) fun tr => stable_mpure _
    · exact stable_mpure _
  all_goals exact stable_mthrow _

theorem stable_associatedMethodsM (C : Crates) (self : CachedItem) :
    Stable (associatedMethodsM C self) := by
  simp only [associatedMethodsM]
  split
  · exact stable_mpure _
  · split
    · exact stable_mthrow _
    · split
      · refine stable_mmapM (fun mid => ?_) _
        split
        · exact stable_mthrow _
        · exact stable_insertWithPath C _ _
      · exact stable_mpure _

theorem stable_reprCachedItem (C : Crates) (self : CachedItem) :
    Stable (reprCachedItem C self) := by
  simp only [reprCachedItem]
  split
  · refine stable_mbind (stable_liftE _) fun nm => ?_
    refine stable_mbind ?_ fun i => stable_mbind (stable_reprItemEnum C self _)
      fun sig => stable_mpure _
    split
    · exact stable_mpure _
    · exact stable_mthrow _
  · exact stable_mbind (stable_associatedMethodsM C self) fun ms =>
      stable_mbind (stable_liftE _) fun rows =>
        stable_mbind (stable_liftE _) fun nm => stable_mpure _
  · exact stable_mthrow _

/-! ## Cache operations as a small interpreter (for the uniqueness claim) -/

/-- The two ways a `CachedItem` is ever produced by the pool. -/
inductive PoolOp where
  | get
  | insertWithPath (path : List String)

def runPoolOp (C : Crates) : PoolOp → ItemId → M CachedItem
  | PoolOp.get, id => ItemPool.get C id
  | PoolOp.insertWithPath p, id => ItemPool.insert_with_path C id p

/-- An arbitrary interleaving of pool operations (a cache lifetime). -/
def runOps (C : Crates) : List (PoolOp × ItemId) → M Unit
  | [] => mpure ()
  | (o, id) :: rest => mbind (runPoolOp C o id) fun _ => runOps C rest

theorem stable_runPoolOp (C : Crates) (o : PoolOp) (id : ItemId) :
    Stable (runPoolOp C o id) := by
  cases o with
  | get => exact stable_poolGet C id
  | insertWithPath p => exact stable_insertWithPath C id p

theorem stable_runOps (C : Crates) :
    ∀ ops : List (PoolOp × ItemId), Stable (runOps C ops)
  | [] => by simp only [runOps]; exact stable_mpure _
  | (o, id) :: rest => by
    simp only [runOps]
    exact stable_mbind (stable_runPoolOp C o id) fun _ => stable_runOps C rest

/-- Every successful pool operation leaves its item in the cache. -/
theorem runPoolOp_post {C : Crates} {o : PoolOp} {id : ItemId}
    {s s' : CacheState} {it : CachedItem}
    (h : runPoolOp C o id s = .ok (it, s')) : mapGet id s' = some it := by
  cases o with
  | get => exact poolGet_post h
  | insertWithPath p => exact insertWithPath_post h

/-- Every pool operation returns the cached instance when one exists. -/
theorem runPoolOp_hit {C : Crates} {o : PoolOp} {id : ItemId}
    {s : CacheState} {it : CachedItem} (h : mapGet id s = some it) :
    runPoolOp C o id s = .ok (it, s) := by
  cases o with
  | get => exact poolGet_hit h
  | insertWithPath p => exact insertWithPath_hit h

/-! ## Shape of the Methods-table rows -/

theorem strData_append (a b : String) : (a ++ b).data = a.data ++ b.data := rfl

/-- `methodRows` yields one `"| ..."` row per method. -/
theorem methodRows_shape (self : CachedItem) :
    ∀ ms rows, methodRows self ms = .ok rows →
      rows.length = ms.length ∧ ∀ r ∈ rows, ∃ t, r = "| " ++ t := by
  intro ms
  induction ms with
  | nil =>
    intro rows h
    simp only [methodRows] at h
    cases h
    exact ⟨rfl, by simp⟩
  | cons m ms ih =>
    intro rows h
    simp only [methodRows] at h
    cases hrow : methodRow self m with
    | error e => rw [hrow] at h; exact absurd h (by simp)
    | ok r =>
      rw [hrow] at h
      cases hrs : methodRows self ms with
      | error e => rw [hrs] at h; exact absurd h (by simp)
      | ok rs =>
        rw [hrs] at h
        cases h
        obtain ⟨hlen, hshape⟩ := ih rs hrs
        refine ⟨by simp [hlen], ?_⟩
        intro r' hr'
        rcases List.mem_cons.mp hr' with hr' | hr'
        · subst hr'
          simp only [methodRow] at hrow
          cases hmd : crossRefMd self m with
          | error e => rw [hmd] at hrow; exact absurd hrow (by simp)
          | ok md =>
            rw [hmd] at hrow
            cases hit : m.item with
            | none => rw [hit] at hrow; exact absurd hrow (by simp)
            | some mi =>
              rw [hit] at hrow
              cases hrow
              exact ⟨md ++ " | " ++ caption mi ++ " |", by simp [String.ext_iff, strData_append]⟩
        · exact hshape r' hr'

/-- A row string is never empty, so neither is the joined table body. -/
theorem joinSep_rows_ne_empty {rows : List String} {r : String} {t : String}
    (hr : r = "| " ++ t) : joinSep "\n" (r :: rows) ≠ "" := by
  intro hcon
  cases rows with
  | nil =>
    simp only [joinSep] at hcon
    subst hcon
    exact absurd (congrArg String.data hr) (by simp [strData_append])
  | cons r' rows =>
    simp only [joinSep] at hcon
    have := congrArg String.data hcon
    rw [hr] at this
    simp [strData_append] at this

/-! ## Behaviour of the code-block state machine -/

/-- Outside a block, fence-free lines pass through verbatim. -/
theorem hideGo_none_app (pre rest : List String)
    (h : ∀ l ∈ pre, isFence l = false) :
    hideLinesGo CodeBlock.None (pre ++ rest) =
      pre ++ hideLinesGo CodeBlock.None rest := by
  induction pre with
  | nil => rfl
  | cons l pre ih =>
    have hl : isFence l = false := h l (by simp)
    simp only [List.cons_append, hideLinesGo, codeCapture, hl]
    simp only [Bool.false_eq_true, if_false, List.append_eq]
    rw [ih (fun l' hl' => h l' (by simp [hl']))]

/-- Inside a rust block, fence-free lines are filtered by `reShow`. -/
theorem hideGo_rust_app (body rest : List String)
    (h : ∀ l ∈ body, isFence l = false) :
    hideLinesGo CodeBlock.Rust (body ++ rest) =
      body.filter reShow ++ hideLinesGo CodeBlock.Rust rest := by
  induction body with
  | nil => rfl
  | cons l body ih =>
    have hl : isFence l = false := h l (by simp)
    simp only [List.cons_append, hideLinesGo, hl]
    simp only [Bool.false_eq_true, if_false, List.filter_cons, List.append_eq]
    rw [ih (fun l' hl' => h l' (by simp [hl']))]
    cases hsh : reShow l <;> simp [hsh]

/-! ## A small concrete item graph used for witnesses and counterexamples -/

def demoSumm : ItemSummary :=
  { crate_id := 0, path := ["demo", "S"], kind := ItemKind.Struct }

def demoStructItemRaw : Item :=
  { id := "0:1", crate_id := 0, name := some "S", docs := none,
    inner := ItemEnum.Struct ["0:2"] }

def demoImplItem : Item :=
  { id := "0:2", crate_id := 0, name := none, docs := none,
    inner := ItemEnum.Impl none ["0:3"] }

def demoMethodItem : Item :=
  { id := "0:3", crate_id := 0, name := some "m", docs := some "Does m.",
    inner := ItemEnum.Function (FnDecl.mk [] none) }

def demoCrate : Crate :=
  { index := [("0:1", demoStructItemRaw), ("0:2", demoImplItem), ("0:3", demoMethodItem)],
    paths := [("0:1", demoSumm)],
    external_crates := [],
    crate_version := some "0.1.0" }

def demoCrates : Crates := [("demo", demoCrate)]

def demoId : ItemId := { pkg := "demo", id := "0:1" }

/-- The cached item `ItemPool::get` constructs for `demoId`. -/
def demoCached : CachedItem :=
  { id := demoId, item := some demoStructItemRaw,
    item_summary := some demoSumm, path := ["demo"] }

def demoMethodId : ItemId := { pkg := "demo", id := "0:3" }

/-- The cached item `associated_methods` synthesizes for the method `m`. -/
def demoMethodCached : CachedItem :=
  { id := demoMethodId, item := some demoMethodItem,
    item_summary := none, path := ["demo", "S"] }

/-- The page `Repr for CachedItem` produces for the demo struct. -/
def demoOut : String :=
  "# S\n\n\n\n# Methods\n| Method | Description |\n| --- | --- |\n| [m](S/m.md) | Does m. |"

/-! ## Claim C1 -/

/-- Claim C1 (code bug): the relative-path resolver is claimed to use the
longest-common-prefix length `d`, equivalently to produce a path that resolves
from `from`'s directory exactly to `to`'s directory.  The code instead counts
EVERY index at which the zipped segments agree: on `from = ["a","x"]`,
`to = ["b","x"]` it counts the trailing `"x"` (`d = 1`), returns `["..","x"]`
— not the `["..","..","b","x"]` the claim requires — and that result resolves
back to `["a","x"]`, not to `["b","x"]`. -/
theorem relativeTo_counts_nonprefix_matches :
    relativeTo ["a", "x"] ["b", "x"] = ["..", "x"] ∧
    resolveAgainst ["a", "x"] (relativeTo ["a", "x"] ["b", "x"]) = ["a", "x"] ∧
    (["a", "x"] : List String) ≠ ["b", "x"] ∧
    relativeTo ["a", "x"] ["b", "x"] ≠ ["..", "..", "b", "x"] := by
  refine ⟨by decide, by decide, by decide, by decide⟩

/-! ## Claim C2 -/

/-- The `doc_traits.rs` blanket resolver does tolerate an identifier absent
from the index: it degrades to an empty link (supporting lemma for C2). -/
theorem externalLinkDT_missing_is_empty (C : Crates) (pkg id : String)
    (cr : Crate) (hc : mapGet pkg C = some cr)
    (hi : mapGet id cr.index = none) :
    externalLinkDT C pkg id = .ok "" := by
  simp only [externalLinkDT, hc, hi]

/-- Claim C2 (code bug): rendering a type reference whose identifier is
absent from the graph store is claimed to degrade to an empty external link
without aborting.  In `segment.rs`, `Repr for rustdoc_types::Path` resolves
the id through `ItemPool::get`, whose `CachedItem::new` unwraps the missing
path summary: rendering the reference `Foreign` (id `0:99`, absent from both
the index and the path map) aborts with a panic instead. -/
theorem missing_item_rendering_panics :
    reprRPath demoCrates demoCached (RPath.mk "Foreign" "0:99" none) [] =
      .error "CachedItem::new: missing path summary" := rfl

/-! ## Claim C3 -/

/-- The type-expression variants outside the supported rendering set. -/
def Type'.unsupported : Type' → Bool
  | Type'.FunctionPointer _ => true
  | Type'.Infer => true
  | Type'.RawPointer _ _ => true
  | Type'.QualifiedPath _ _ _ _ => true
  | _ => false

/-- Claim C3 (confirmed): for every type-expression variant outside the
supported set (primitive, resolved path, dyn trait, generic, reference,
tuple, slice, array, impl trait), both the `segment.rs` renderer and the
`main.rs` renderer raise the unsupported-input failure — they never return an
empty or placeholder rendering. -/
theorem unsupported_type_variant_errors (C : Crates) (root : CachedItem)
    (t : Type') (s : CacheState) (h : t.unsupported = true) :
    reprType C root t s = .error "Unimplemented Type" ∧
    mainType t = .error "Unimplemented Type" := by
  cases t with
  | FunctionPointer d => exact ⟨rfl, rfl⟩
  | Infer => exact ⟨rfl, rfl⟩
  | RawPointer m ty => exact ⟨rfl, rfl⟩
  | QualifiedPath n a st tr => exact ⟨rfl, rfl⟩
  | Primitive p => exact Bool.noConfusion h
  | ResolvedPath p => exact Bool.noConfusion h
  | DynTrait ts lt => exact Bool.noConfusion h
  | Generic g => exact Bool.noConfusion h
  | BorrowedRef lt mu ty => exact Bool.noConfusion h
  | Tuple ts => exact Bool.noConfusion h
  | Slice ty => exact Bool.noConfusion h
  | Array ty len => exact Bool.noConfusion h
  | ImplTrait bs => exact Bool.noConfusion h

/-- Witness for claim C3 at the `Infer` variant. -/
theorem unsupported_type_variant_errors_witness :
    Type'.unsupported Type'.Infer = true ∧
    (reprType demoCrates demoCached Type'.Infer [] = .error "Unimplemented Type" ∧
     mainType Type'.Infer = .error "Unimplemented Type") :=
  ⟨rfl, unsupported_type_variant_errors demoCrates demoCached Type'.Infer [] rfl⟩

/-! ## Claim C4 -/

/-- Claim C4 (confirmed): at most one cached item is ever constructed per
item identifier.  Whatever pool operation first produced the item for `id`,
after any interleaving of further pool operations a second lookup of `id` —
through `get` or through the synthesized-path insertion — returns the very
same cached value and leaves the memoization table untouched. -/
theorem cache_at_most_one_item (C : Crates) (o1 o2 : PoolOp) (id : ItemId)
    (ops : List (PoolOp × ItemId)) (s s1 s2 s3 : CacheState)
    (v1 v2 : CachedItem)
    (h1 : runPoolOp C o1 id s = .ok (v1, s1))
    (hmid : runOps C ops s1 = .ok ((), s2))
    (h2 : runPoolOp C o2 id s2 = .ok (v2, s3)) :
    v2 = v1 ∧ s3 = s2 := by
  have hv1 : mapGet id s1 = some v1 := runPoolOp_post h1
  have hsub : SubState s1 s2 := ((stable_runOps C ops) s1 () s2 hmid).1
  have hhit := runPoolOp_hit (C := C) (o := o2) (hsub id v1 hv1)
  rw [h2] at hhit
  injection hhit with hp
  exact ⟨congrArg Prod.fst hp, congrArg Prod.snd hp⟩

/-- Witness for claim C4: two `get`s of the demo struct id. -/
theorem cache_at_most_one_item_witness :
    runPoolOp demoCrates PoolOp.get demoId [] =
      .ok (demoCached, [(demoId, demoCached)]) ∧
    runOps demoCrates [] [(demoId, demoCached)] =
      .ok ((), [(demoId, demoCached)]) ∧
    runPoolOp demoCrates PoolOp.get demoId [(demoId, demoCached)] =
      .ok (demoCached, [(demoId, demoCached)]) ∧
    (demoCached = demoCached ∧
      ([(demoId, demoCached)] : CacheState) = [(demoId, demoCached)]) :=
  ⟨rfl, rfl, rfl,
    cache_at_most_one_item demoCrates PoolOp.get PoolOp.get demoId [] []
      [(demoId, demoCached)] [(demoId, demoCached)] [(demoId, demoCached)]
      demoCached demoCached rfl rfl rfl⟩

/-! ## Claim C5 -/

/-- Claim C5 (counterexample): the cleanup is claimed to touch only `#`-lines
inside unlabeled/rust fenced blocks and to pass every other line — including
whole blocks of other languages — through verbatim.  The code does neither:
a ```` ```python ```` fence is not recognized, so the block's closing fence is
rewritten to ```` ```rust ```` and the following `#` line (outside any block)
is swallowed; and a completely empty line inside an unlabeled block is hidden
even though it does not begin with `#` (while the unlabeled opening fence,
which the claim leaves untouched, is rewritten to ```` ```rust ````). -/
theorem hide_code_block_claim_false :
    hide_code_block_lines "```python\nx = 1\n```\n# after" =
      "```python\nx = 1\n```rust" ∧
    hide_code_block_lines "```python\nx = 1\n```\n# after" ≠
      "```python\nx = 1\n```\n# after" ∧
    hide_code_block_lines "```\n\nvisible\n```" = "```rust\nvisible\n```" ∧
    hide_code_block_lines "```\n\nvisible\n```" ≠ "```\n\nvisible\n```" :=
  ⟨rfl, by decide, rfl, by decide⟩

/-- Outside a block, a fence-free document is returned unchanged. -/
theorem hideGo_none_id (ls : List String) (h : ∀ l ∈ ls, isFence l = false) :
    hideLinesGo CodeBlock.None ls = ls := by
  have happ := hideGo_none_app ls [] h
  simpa [show hideLinesGo CodeBlock.None [] = [] from rfl] using happ

/-- Claim C5 (amended): on a document made of fence-free text, one fenced
block whose opening line matches the unlabeled-or-rust fence pattern, and
fence-free text after the closing ```` ``` ````, the cleanup keeps the
outside text verbatim (in particular fences labeled with other languages are
not recognized and pass through as plain text), rewrites the opening fence —
unlabeled or rust-labeled — to a bare ```` ```rust ````, keeps the closing
fence, and inside the block keeps exactly the lines accepted by `reShow`:
those whose first character exists and is not `#`, plus those starting `#[`
(so `#`-setup lines and empty lines are hidden). -/
theorem hide_code_block_amended (pre body post : List String) (f : String)
    (hf : isFence f = true)
    (hpre : ∀ l ∈ pre, isFence l = false)
    (hbody : ∀ l ∈ body, isFence l = false)
    (hpost : ∀ l ∈ post, isFence l = false) :
    hideLines (pre ++ f :: (body ++ "```" :: post)) =
      pre ++ "```rust" :: (body.filter reShow ++ "```" :: post) ∧
    hideLines pre = pre := by
  constructor
  · show hideLinesGo CodeBlock.None _ = _
    rw [hideGo_none_app pre _ hpre]
    refine congrArg (fun x => pre ++ x) ?_
    have hcap : codeCapture f = some true := by
      simp [codeCapture, hf]
    simp only [hideLinesGo, hcap]
    refine congrArg (fun x => "```rust" :: x) ?_
    rw [hideGo_rust_app body _ hbody]
    refine congrArg (fun x => body.filter reShow ++ x) ?_
    have hstep : hideLinesGo CodeBlock.Rust ("```" :: post) =
        "```" :: hideLinesGo CodeBlock.None post := rfl
    rw [hstep]
    exact congrArg (fun x => "```" :: x) (hideGo_none_id post hpost)
  · exact hideGo_none_id pre hpre

/-- Witness for claim C5 (amended), on a document whose outside text contains
a python fence opener and whose rust block contains hidden, attribute, shown
and empty lines. -/
theorem hide_code_block_amended_witness :
    isFence "```rust" = true ∧
    (∀ l ∈ (["Intro.", "```python"] : List String), isFence l = false) ∧
    (∀ l ∈ (["# hidden", "#[derive(Debug)]", "visible();", ""] : List String),
      isFence l = false) ∧
    (∀ l ∈ (["tail"] : List String), isFence l = false) ∧
    (hideLines (["Intro.", "```python"] ++ "```rust" ::
        (["# hidden", "#[derive(Debug)]", "visible();", ""] ++ "```" :: ["tail"])) =
      ["Intro.", "```python"] ++ "```rust" ::
        ((["# hidden", "#[derive(Debug)]", "visible();", ""].filter reShow) ++
          "```" :: ["tail"]) ∧
     hideLines ["Intro.", "```python"] = ["Intro.", "```python"]) :=
  ⟨by decide, by decide, by decide, by decide,
    hide_code_block_amended ["Intro.", "```python"]
      ["# hidden", "#[derive(Debug)]", "visible();", ""] ["tail"] "```rust"
      (by decide) (by decide) (by decide) (by decide)⟩

/-! ## Claim C9 -/

/-- Claim C9 (confirmed): inside an unlabeled (hence rust-treated) fenced
block, completely empty lines are removed as well — the keep-predicate
requires a first character other than `#`, and an empty line has none — so no
empty line of the block survives to the output. -/
theorem rust_block_drops_empty_lines (body : List String)
    (hbody : ∀ l ∈ body, isFence l = false) :
    "" ∉ hideLines ("```" :: (body ++ ["```"])) := by
  have hcap : codeCapture "```" = some true := by decide
  have h1 : hideLines ("```" :: (body ++ ["```"])) =
      "```rust" :: (body.filter reShow ++ ["```"]) := by
    show hideLinesGo CodeBlock.None _ = _
    simp only [hideLinesGo, hcap]
    refine congrArg (fun x => "```rust" :: x) ?_
    rw [hideGo_rust_app body _ hbody]
    rfl
  rw [h1]
  intro hmem
  rcases List.mem_cons.mp hmem with h | h
  · exact absurd h (by decide)
  · rcases List.mem_append.mp h with h | h
    · obtain ⟨_, hsh⟩ := List.mem_filter.mp h
      exact absurd hsh (by decide)
    · exact absurd (List.mem_singleton.mp h) (by decide)

/-- Witness for claim C9: a block containing an empty line, a `#` line and a
kept line. -/
theorem rust_block_drops_empty_lines_witness :
    (∀ l ∈ (["", "# hide", "keep"] : List String), isFence l = false) ∧
    "" ∉ hideLines ("```" :: (["", "# hide", "keep"] ++ ["```"])) :=
  ⟨by decide, rust_block_drops_empty_lines ["", "# hide", "keep"] (by decide)⟩

/-! ## Claim C6 -/

/-- Claim C6 (counterexample): the slice rendering is claimed to be exactly
the element rendering wrapped in square brackets with no other characters, in
particular no leading `&`.  The `repr.rs` revision of the renderer
(repr.rs:181) emits `&[elem]`: at `[u8]` its output starts with `&` and is
not the bracket-wrapping of its own element rendering. -/
theorem slice_render_claim_false :
    rsType demoCrates demoCached (Type'.Slice (Type'.Primitive "u8")) [] =
      .ok ("&[<a href=\"https://doc.rust-lang.org/std/primitive.u8.html\">u8</a>]", []) ∧
    rsType demoCrates demoCached (Type'.Primitive "u8") [] =
      .ok ("<a href=\"https://doc.rust-lang.org/std/primitive.u8.html\">u8</a>", []) ∧
    "&[<a href=\"https://doc.rust-lang.org/std/primitive.u8.html\">u8</a>]" ≠
      "[" ++ "<a href=\"https://doc.rust-lang.org/std/primitive.u8.html\">u8</a>" ++ "]" :=
  ⟨rfl, rfl, by decide⟩

/-- Claim C6 (amended): the `segment.rs` and `main.rs` renderers produce
exactly the bracket-wrapped recursive rendering of the element type, with no
leading `&`; the `repr.rs` revision instead prefixes the bracket-wrapped
element rendering with `&`. -/
theorem slice_render_amended (C : Crates) (root : CachedItem) (t : Type')
    (s : CacheState) :
    reprType C root (Type'.Slice t) s =
      (match reprType C root t s with
       | .ok (v, s') => .ok ("[" ++ v ++ "]", s')
       | .error e => .error e) ∧
    rsType C root (Type'.Slice t) s =
      (match rsType C root t s with
       | .ok (v, s') => .ok ("&[" ++ v ++ "]", s')
       | .error e => .error e) ∧
    mainType (Type'.Slice t) =
      (match mainType t with
       | .ok v => .ok ("[" ++ v ++ "]")
       | .error e => .error e) := by
  refine ⟨?_, ?_, ?_⟩
  · simp only [reprType, mbind]
    cases reprType C root t s with
    | error e => rfl
    | ok p => obtain ⟨v, s'⟩ := p; rfl
  · simp only [rsType, mbind]
    cases rsType C root t s with
    | error e => rfl
    | ok p => obtain ⟨v, s'⟩ := p; rfl
  · simp only [mainType]
    cases mainType t with
    | error e => rfl
    | ok v => rfl

/-! ## Claim C7 -/

/-- Claim C7 (confirmed): a struct item with zero inherent methods renders as
just the heading and documentation text — no Methods section at all — while a
struct with at least one method renders the heading, the documentation and a
Methods table with exactly one row per method (each row a Markdown
cross-reference link and the method's doc caption, per `methodRow`). -/
theorem struct_methods_section (C : Crates) (self : CachedItem)
    (s s₁ : CacheState) (ms : List CachedItem) (nm : String)
    (hk : kindOf self = ItemKind.Struct)
    (hn : nameOf self = .ok nm)
    (hm : associatedMethodsM C self s = .ok (ms, s₁)) :
    (ms = [] →
      reprCachedItem C self s = .ok ("# " ++ nm ++ "\n\n" ++ docsOf self, s₁)) ∧
    (∀ rows, methodRows self ms = .ok rows → ms ≠ [] →
      rows.length = ms.length ∧
      reprCachedItem C self s =
        .ok ("# " ++ nm ++ "\n\n" ++ docsOf self ++
          "\n\n# Methods\n| Method | Description |\n| --- | --- |\n" ++
          joinSep "\n" rows, s₁)) := by
  have hrepr : reprCachedItem C self s =
      (mbind (associatedMethodsM C self) fun ms =>
        mbind (liftE (methodRows self ms)) fun rows =>
          mbind (liftE (nameOf self)) fun nm' =>
            mpure (structPage nm' (docsOf self) (joinSep "\n" rows))) s := by
    simp only [reprCachedItem, hk]
  constructor
  · intro hnil
    subst hnil
    rw [hrepr]
    simp only [mbind, hm, methodRows, liftE, hn, mpure, joinSep]
    simp [structPage]
  · intro rows hrows hne
    obtain ⟨hlen, hshape⟩ := methodRows_shape self ms rows hrows
    refine ⟨hlen, ?_⟩
    obtain ⟨r, rs, hrr⟩ : ∃ r rs, rows = r :: rs := by
      cases rows with
      | nil =>
        cases ms with
        | nil => exact absurd rfl hne
        | cons _ _ => simp at hlen
      | cons r rs => exact ⟨r, rs, rfl⟩
    obtain ⟨t, ht⟩ := hshape r (by rw [hrr]; exact List.mem_cons_self r rs)
    have hne' : joinSep "\n" rows ≠ "" := by
      rw [hrr]; exact joinSep_rows_ne_empty ht
    rw [hrepr]
    simp only [mbind, hm, liftE, hrows, hn, mpure]
    simp only [structPage, if_neg hne']

/-- Witness for claim C7: the demo struct with its single method `m`. -/
theorem struct_methods_section_witness :
    kindOf demoCached = ItemKind.Struct ∧
    nameOf demoCached = .ok "S" ∧
    associatedMethodsM demoCrates demoCached [] =
      .ok ([demoMethodCached], [(demoMethodId, demoMethodCached)]) ∧
    methodRows demoCached [demoMethodCached] = .ok ["| [m](S/m.md) | Does m. |"] ∧
    reprCachedItem demoCrates demoCached [] =
      .ok (demoOut, [(demoMethodId, demoMethodCached)]) := by
  refine ⟨rfl, rfl, rfl, rfl, ?_⟩
  have h := (struct_methods_section demoCrates demoCached []
      [(demoMethodId, demoMethodCached)] [demoMethodCached] "S"
      rfl rfl rfl).2 ["| [m](S/m.md) | Does m. |"] rfl
      (List.cons_ne_nil demoMethodCached [])
  exact h.2.trans (by rfl)

/-! ## Claim C8 -/

/-- Claim C8 (confirmed): rendering is deterministic and idempotent — when a
render of a cached item over a fixed graph store succeeds with output `out`
and cache `s'`, rendering the same item again from `s'` produces the same
byte-identical output and leaves the cache unchanged: the insertions done by
the first render do not alter the second one. -/
theorem render_idempotent (C : Crates) (it : CachedItem) (s s' : CacheState)
    (out : String) (h : reprCachedItem C it s = .ok (out, s')) :
    reprCachedItem C it s' = .ok (out, s') :=
  ((stable_reprCachedItem C it) s out s' h).2 s' (subState_refl s')

/-- Witness for claim C8: the demo struct page renders identically the second
time, from the cache its first render populated. -/
theorem render_idempotent_witness :
    reprCachedItem demoCrates demoCached [] =
      .ok (demoOut, [(demoMethodId, demoMethodCached)]) ∧
    reprCachedItem demoCrates demoCached [(demoMethodId, demoMethodCached)] =
      .ok (demoOut, [(demoMethodId, demoMethodCached)]) :=
  ⟨rfl, render_idempotent demoCrates demoCached [] [(demoMethodId, demoMethodCached)]
    demoOut rfl⟩

/-! ## Claim C10 -/

/-- Claim C10 (confirmed): `CachedItem::new_with_path` uses the supplied
synthesized path only when the graph store records no path summary for the
identifier; when an authoritative summary exists, its path minus the leaf
segment always wins. -/
theorem synthesized_path_only_without_summary (C : Crates) (id : ItemId)
    (p : List String) (it : CachedItem)
    (h : CachedItem.new_with_path C id p = .ok it) :
    it.path =
      (match (mapGet id.pkg C).bind (fun cr => mapGet id.id cr.paths) with
       | some summ => summ.path.dropLast
       | none => p) := by
  simp only [CachedItem.new_with_path] at h
  cases hc : mapGet id.pkg C with
  | none => rw [hc] at h; exact absurd h (by simp)
  | some cr =>
    rw [hc] at h
    cases h
    rfl

/-- Witness for claim C10: the demo struct id has a summary whose path
(minus the leaf, `["demo"]`) overrides the supplied `["zzz"]`. -/
theorem synthesized_path_only_without_summary_witness :
    CachedItem.new_with_path demoCrates demoId ["zzz"] = .ok demoCached ∧
    demoCached.path =
      (match (mapGet demoId.pkg demoCrates).bind
          (fun cr => mapGet demoId.id cr.paths) with
       | some summ => summ.path.dropLast
       | none => ["zzz"]) :=
  ⟨rfl, synthesized_path_only_without_summary demoCrates demoId ["zzz"]
    demoCached rfl⟩
